import Mathlib

/-!
Shallow embedding of the signal-fusion and liquidation-clustering engine
(visual_screener.py, rsi_heatmap.py, liquidation_analyzer.py,
deep_liquidation_analyzer.py, master_strategy.py).

Numeric values (Python floats / ints) are modelled as rationals (`ℚ`) and
integers (`ℤ`).  Python strings used as enums ("LONG", "UP", "HIGH", ...)
are modelled as `String`.  Display-only fields (reasoning f-strings with
formatted numbers, timestamps, URLs) are elided; the retained fields are
exactly the ones the verified claims mention.
-/

namespace WhaleRadar

/-- Python `int(x)` truncation toward zero, on rationals. -/
def ratTrunc (q : ℚ) : ℤ :=
  if q < 0 then -(⌊-q⌋) else ⌊q⌋

/-! ## Momentum Scorer (visual_screener.py `_calculate_momentum_score`, `_determine_bias`) -/

/-- `VisualScreenerAnalyzer._calculate_momentum_score`.
`volThresh` and `oiThresh` are `settings.volume_spike_threshold` (default 200)
and `settings.oi_spike_threshold` (default 50). -/
def calculateMomentumScore (volThresh oiThresh : ℚ)
    (priceChange volumeChange oiChange : ℚ) : ℤ :=
  let s0 : ℚ := 50
  let s1 := if 10 < |priceChange| then
      s0 + min 20 |priceChange| * (if 0 < priceChange then 1 else -1)
    else s0 + priceChange * 2
  let s2 := if volThresh < volumeChange then s1 + min 20 (volumeChange / 20)
    else if 100 < volumeChange then s1 + 10
    else if 50 < volumeChange then s1 + 5
    else s1
  let s3 := if oiThresh < |oiChange| then
      s2 + min 10 (|oiChange| / 10) * (if 0 < oiChange then 1 else -1)
    else s2 + oiChange / 5
  let s4 := if 0 < priceChange ∧ 100 < volumeChange ∧ 20 < oiChange then s3 + 10
    else if priceChange < 0 ∧ 100 < volumeChange ∧ 20 < oiChange then s3 - 10
    else s3
  max 0 (min 100 (ratTrunc s4))

/-- `VisualScreenerAnalyzer._determine_bias`. -/
def determineBias (priceChange volumeChange oiChange : ℚ) (momentumScore : ℤ) : String :=
  if 80 < momentumScore ∧ 5 < priceChange then "STRONG_LONG"
  else if momentumScore < 20 ∧ priceChange < -5 then "STRONG_SHORT"
  else if 65 < momentumScore ∧ 0 < priceChange then "LONG"
  else if momentumScore < 35 ∧ priceChange < 0 then "SHORT"
  else if 3 < priceChange ∧ volumeChange < 50 then "WEAK_LONG"
  else if priceChange < -3 ∧ volumeChange < 50 then "WEAK_SHORT"
  else "NEUTRAL"

/-! ## RSI Confluence Analyzer (rsi_heatmap.py) -/

/-- `RSIData` (rsi_heatmap.py).  Only the fields read by the verified code
paths are kept: the 1h/4h/12h/1d values, the status label and the
confluence score (the 5m/15m/1w values are carried by the source dataclass
but never read by `confirm_direction_with_rsi`, `_determine_rsi_status` or
the master strategy). -/
structure RSIData where
  rsi_1h : ℚ
  rsi_4h : ℚ
  rsi_12h : ℚ
  rsi_1d : ℚ
  status : String
  confluence_score : ℤ
deriving DecidableEq

/-- `RSIAnalyzer._determine_rsi_status` over the important timeframes
1h/4h/12h/1d.  `osT`/`obT` are `settings.rsi_oversold` (default 30) and
`settings.rsi_overbought` (default 70).  The source counts with
`if rsi <= osT: ... elif rsi >= obT: ...`, so the overbought count only
sees values not already counted oversold. -/
def determineRsiStatus (osT obT : ℚ) (r1h r4h r12h r1d : ℚ) : String :=
  let vals := [r1h, r4h, r12h, r1d]
  let oversoldCount := (vals.filter (fun v => decide (v ≤ osT))).length
  let overboughtCount := (vals.filter (fun v => decide (¬ v ≤ osT ∧ obT ≤ v))).length
  if 3 ≤ oversoldCount then "OVERSOLD"
  else if 3 ≤ overboughtCount then "OVERBOUGHT"
  else if 2 ≤ oversoldCount then "WEAK"
  else if 2 ≤ overboughtCount then "STRONG"
  else "NEUTRAL"

/-- `RSIAnalyzer.confirm_direction_with_rsi`, returning the pair
(confidence, reasons).  The sequential mutation of `confidence` in the
source is modelled by successive lets. -/
def confirmDirectionWithRsi (r : RSIData) (proposedDirection : String) :
    String × List String :=
  let c0 := "LOW"
  let step1 :=
    if proposedDirection = "UP" then
      let a := if r.status = "OVERSOLD" ∨ r.status = "WEAK" then
          ("HIGH", ["RSI indicates oversold conditions"]) else (c0, ([] : List String))
      let b := if r.rsi_4h < 35 ∧ r.rsi_1d < 40 then
          ("HIGH", a.2 ++ ["4H and 1D RSI both oversold"])
        else if r.rsi_1h < 30 then ("MEDIUM", a.2 ++ ["1H RSI oversold"])
        else a
      if r.rsi_1h < r.rsi_4h ∧ r.rsi_4h < r.rsi_1d then
        (b.1, b.2 ++ ["RSI showing potential bullish divergence"]) else b
    else if proposedDirection = "DOWN" then
      let a := if r.status = "OVERBOUGHT" ∨ r.status = "STRONG" then
          ("HIGH", ["RSI indicates overbought conditions"]) else (c0, ([] : List String))
      let b := if 65 < r.rsi_4h ∧ 60 < r.rsi_1d then
          ("HIGH", a.2 ++ ["4H and 1D RSI both overbought"])
        else if 70 < r.rsi_1h then ("MEDIUM", a.2 ++ ["1H RSI overbought"])
        else a
      if r.rsi_4h < r.rsi_1h ∧ r.rsi_1d < r.rsi_4h then
        (b.1, b.2 ++ ["RSI showing potential bearish divergence"]) else b
    else (c0, ([] : List String))
  if 45 ≤ r.rsi_4h ∧ r.rsi_4h ≤ 55 then
    ("LOW", step1.2 ++ ["4H RSI is neutral"])
  else step1

/-! ## Liquidation Cluster Engine (liquidation_analyzer.py) -/

/-- `LiquidationCluster` (liquidation_analyzer.py). -/
structure LiqCluster where
  price : ℚ
  value_usd : ℚ
  type : String
  cumulative_value : ℚ
  distance_from_price_pct : ℚ
deriving DecidableEq

/-- One timeframe's raw heatmap payload: the `longs` and `shorts`
price→value maps, modelled as lists of (price, value) pairs. -/
structure SideData where
  longs : List (ℚ × ℚ)
  shorts : List (ℚ × ℚ)
deriving DecidableEq

/-- Add `v` to the value registered for key `p` in an association list
(Python dict accumulation `aggregated[price] += value`). -/
def aggAdd (m : List (ℚ × ℚ)) (p v : ℚ) : List (ℚ × ℚ) :=
  match m with
  | [] => [(p, v)]
  | y :: rest => if p = y.1 then (y.1, y.2 + v) :: rest else y :: aggAdd rest p v

/-- Insert into a list sorted descending by key (used to model Python's
`sorted(keys, reverse=True)` on the unique dict keys). -/
def insertKeyDesc (x : ℚ × ℚ) : List (ℚ × ℚ) → List (ℚ × ℚ)
  | [] => [x]
  | y :: ys => if y.1 ≤ x.1 then x :: y :: ys else y :: insertKeyDesc x ys

/-- Sort an association list descending by key. -/
def sortKeyDesc (l : List (ℚ × ℚ)) : List (ℚ × ℚ) := l.foldr insertKeyDesc []

/-- Insert into a list sorted ascending by key (Python's `sorted(keys)`). -/
def insertKeyAsc (x : ℚ × ℚ) : List (ℚ × ℚ) → List (ℚ × ℚ)
  | [] => [x]
  | y :: ys => if x.1 ≤ y.1 then x :: y :: ys else y :: insertKeyAsc x ys

/-- Sort an association list ascending by key. -/
def sortKeyAsc (l : List (ℚ × ℚ)) : List (ℚ × ℚ) := l.foldr insertKeyAsc []

/-- Absolute distance from the current price in percent:
`abs((price - current_price) / current_price * 100)`. -/
def distancePct (price currentPrice : ℚ) : ℚ :=
  |(price - currentPrice) / currentPrice * 100|

/-- The cluster-building loop of `LiquidationAnalyzer._process_clusters`:
walk the sorted aggregated levels keeping a running cumulative value and
retain levels whose value reaches `minV` (`settings.min_liquidation_value_usd`). -/
def buildClusters (ty : String) (cp minV : ℚ) : List (ℚ × ℚ) → ℚ → List LiqCluster
  | [], _ => []
  | y :: rest, cum =>
    if minV ≤ y.2 then
      { price := y.1, value_usd := y.2, type := ty, cumulative_value := cum + y.2,
        distance_from_price_pct := distancePct y.1 cp } :: buildClusters ty cp minV rest (cum + y.2)
    else buildClusters ty cp minV rest cum

/-- `LiquidationAnalyzer._process_clusters`.  The heatmap input is the
per-timeframe payload list; `none` stands for a timeframe whose entry is
falsy or lacks a `"data"` key and is skipped.  Long levels are kept only
below the current price and short levels only above it, then aggregated
across timeframes, sorted (longs descending, shorts ascending) and turned
into clusters. -/
def processClusters (heat : List (Option SideData)) (cp minV : ℚ) :
    List LiqCluster × List LiqCluster :=
  let aggLongs := heat.foldl (fun m tf =>
    match tf with
    | none => m
    | some d => d.longs.foldl (fun m pv => if pv.1 < cp then aggAdd m pv.1 pv.2 else m) m) []
  let aggShorts := heat.foldl (fun m tf =>
    match tf with
    | none => m
    | some d => d.shorts.foldl (fun m pv => if cp < pv.1 then aggAdd m pv.1 pv.2 else m) m) []
  (buildClusters "long" cp minV (sortKeyDesc aggLongs) 0,
   buildClusters "short" cp minV (sortKeyAsc aggShorts) 0)

/-- Insert into a list sorted descending by second component (cumulative
strength), modelling `levels.sort(key=lambda x: x[1], reverse=True)`. -/
def insertSndDesc (x : ℚ × ℚ) : List (ℚ × ℚ) → List (ℚ × ℚ)
  | [] => [x]
  | y :: ys => if y.2 ≤ x.2 then x :: y :: ys else y :: insertSndDesc x ys

/-- Sort a list of (price, strength) pairs descending by strength. -/
def sortSndDesc (l : List (ℚ × ℚ)) : List (ℚ × ℚ) := l.foldr insertSndDesc []

/-- `LiquidationAnalyzer._find_support_levels`: long clusters within 20% of
the current price, as (price, cumulative value) pairs sorted by strength. -/
def findSupportLevels (longClusters : List LiqCluster) : List (ℚ × ℚ) :=
  sortSndDesc ((longClusters.filter
    (fun c => decide (c.distance_from_price_pct < 20))).map
      (fun c => (c.price, c.cumulative_value)))

/-- `LiquidationAnalyzer._find_resistance_levels`: short clusters within
20% of the current price, sorted by strength. -/
def findResistanceLevels (shortClusters : List LiqCluster) : List (ℚ × ℚ) :=
  sortSndDesc ((shortClusters.filter
    (fun c => decide (c.distance_from_price_pct < 20))).map
      (fun c => (c.price, c.cumulative_value)))

/-- `LiquidationAnalyzer._distribute_position`.  For more than four
entries: an even split of `100 // n` with the remainder added to the first
entries.  (The source is only ever called with `n ≥ 1`.) -/
def distributePosition (n : ℕ) : List ℤ :=
  if n = 1 then [100]
  else if n = 2 then [60, 40]
  else if n = 3 then [40, 35, 25]
  else if n = 4 then [30, 30, 25, 15]
  else (List.range n).map (fun i => if i < 100 % n then (100 / n : ℕ) + 1 else (100 / n : ℕ))

/-- A scale-in zone.  The source's zone dicts also carry a display-only
`reason`/`reasoning` f-string, elided here. -/
structure Zone where
  price : ℚ
  position_pct : ℤ
deriving DecidableEq

/-- Sum of the position percentages of a zone list. -/
def sumPct (zones : List Zone) : ℤ := (zones.map Zone.position_pct).sum

/-- `LiquidationAnalyzer._calculate_scale_zones`.  For UP, at most four
support levels each receive `position_pcts[i]` where the percentages were
computed for the full candidate list; mirrored for DOWN; any other
direction takes the RANGE branch (50/50 between the strongest support and
resistance when both exist). -/
def liqCalculateScaleZones (direction : String)
    (longClusters shortClusters : List LiqCluster) : List Zone :=
  if direction = "UP" then
    match findSupportLevels longClusters with
    | [] => []
    | s :: rest =>
      List.zipWith (fun (pv : ℚ × ℚ) pct => Zone.mk pv.1 pct)
        ((s :: rest).take 4) (distributePosition (s :: rest).length)
  else if direction = "DOWN" then
    match findResistanceLevels shortClusters with
    | [] => []
    | r :: rest =>
      List.zipWith (fun (pv : ℚ × ℚ) pct => Zone.mk pv.1 pct)
        ((r :: rest).take 4) (distributePosition (r :: rest).length)
  else
    match findSupportLevels longClusters, findResistanceLevels shortClusters with
    | sp :: _, rp :: _ => [Zone.mk sp.1 50, Zone.mk rp.1 50]
    | _, _ => []

/-! ## Signal Fusion Engine (master_strategy.py) -/

/-- `ScreenerData` (visual_screener.py), the fields read by
`MasterStrategy._generate_signal`. -/
structure ScreenerData where
  price_change_pct : ℚ
  volume_change_pct : ℚ
  oi_change_pct : ℚ
  momentum_score : ℤ
  bias : String
deriving DecidableEq

/-- `LiquidationAnalysis` (liquidation_analyzer.py), the fields read by
`MasterStrategy._generate_signal` and `_calculate_risk_reward`. -/
structure LiquidationAnalysis where
  direction : String
  confidence : String
  long_liquidations : List LiqCluster
  short_liquidations : List LiqCluster
deriving DecidableEq

/-- Minimum of the prices of a nonempty cluster list
(`min(c.price for c in ...)`); `0` on the empty list (the source only
evaluates the generator when the list is truthy). -/
def minClusterPrice : List LiqCluster → ℚ
  | [] => 0
  | c :: rest => rest.foldl (fun a x => min a x.price) c.price

/-- Maximum of the prices of a nonempty cluster list. -/
def maxClusterPrice : List LiqCluster → ℚ
  | [] => 0
  | c :: rest => rest.foldl (fun a x => max a x.price) c.price

/-- `MasterStrategy._calculate_risk_reward`: (stop loss, take profits).
The Python truthiness checks on the cluster lists are modelled by list
matches. -/
def calcRiskReward (action : String) (currentPrice : ℚ)
    (longLiqs shortLiqs : List LiqCluster) : ℚ × List ℚ :=
  if action = "LONG" then
    let stopLoss := match longLiqs with
      | [] => currentPrice * (97 / 100)
      | c :: rest => minClusterPrice ((c :: rest).take 3) * (995 / 1000)
    let takeProfits := match shortLiqs with
      | [] => [currentPrice * (102 / 100), currentPrice * (105 / 100),
          currentPrice * (110 / 100)]
      | c :: rest => ((c :: rest).take 3).map LiqCluster.price
    (stopLoss, takeProfits)
  else if action = "SHORT" then
    let stopLoss := match shortLiqs with
      | [] => currentPrice * (103 / 100)
      | c :: rest => maxClusterPrice ((c :: rest).take 3) * (1005 / 1000)
    let takeProfits := match longLiqs with
      | [] => [currentPrice * (98 / 100), currentPrice * (95 / 100),
          currentPrice * (90 / 100)]
      | c :: rest => ((c :: rest).take 3).map LiqCluster.price
    (stopLoss, takeProfits)
  else
    (currentPrice, [currentPrice])

/-- The signal fields of `MasterSignal` produced by
`MasterStrategy._generate_signal` (display fields — reasons, timestamp,
embedded component data — elided). -/
structure FusedSignal where
  action : String
  confidence : String
  signal_strength : ℤ
  stop_loss : ℚ
  take_profit_targets : List ℚ
deriving DecidableEq

/-- `MasterStrategy._generate_signal`.  Sequential strength accumulation:
seed from the screener bias, cross-check against the liquidation
direction (RANGE forces NEUTRAL), adjust by the RSI confirmation, add
confluence bonuses, re-derive the confidence from the accumulated
strength, compute risk/reward from the final action, clamp strength. -/
def generateSignal (currentPrice : ℚ) (screener : ScreenerData)
    (liquidation : LiquidationAnalysis) (rsi : RSIData) : FusedSignal :=
  let step1 :=
    if screener.bias = "STRONG_LONG" ∨ screener.bias = "LONG" then ("LONG", (20 : ℤ))
    else if screener.bias = "STRONG_SHORT" ∨ screener.bias = "SHORT" then ("SHORT", (20 : ℤ))
    else ("NEUTRAL", 0)
  let step2 :=
    if liquidation.direction = "UP" ∧ step1.1 = "LONG" then
      (step1.1, step1.2 + 30, liquidation.confidence)
    else if liquidation.direction = "DOWN" ∧ step1.1 = "SHORT" then
      (step1.1, step1.2 + 30, liquidation.confidence)
    else if liquidation.direction = "RANGE" then
      ("NEUTRAL", step1.2, "LOW")
    else (step1.1, step1.2 - 10, "LOW")
  let action := step2.1
  let rsiConfidence := (confirmDirectionWithRsi rsi action).1
  let s3 : ℤ := if rsiConfidence = "HIGH" then step2.2.1 + 20
    else if rsiConfidence = "MEDIUM" then step2.2.1 + 10
    else step2.2.1 - 5
  let s4 := if 300 < screener.volume_change_pct ∧ 50 < screener.oi_change_pct then s3 + 10 else s3
  let s5 := if 80 < rsi.confluence_score then s4 + 10 else s4
  let confidence := if 70 ≤ s5 then "HIGH" else if 50 ≤ s5 then "MEDIUM" else "LOW"
  let rr := calcRiskReward action currentPrice
    liquidation.long_liquidations liquidation.short_liquidations
  { action := action, confidence := confidence,
    signal_strength := min 100 (max 0 s5),
    stop_loss := rr.1, take_profit_targets := rr.2 }

/-- `MasterStrategy._get_current_price`: a fixed mock price table with a
default of 100.0 for unknown symbols. -/
def masterGetCurrentPrice (symbol : String) : ℚ :=
  if symbol = "BTC" then 43250
  else if symbol = "ETH" then 2280
  else if symbol = "SOL" then 197 / 2
  else if symbol = "BNB" then 315
  else 100

/-! ## Deep Liquidation Analyzer (deep_liquidation_analyzer.py) -/

/-- `LiquidationLevel` (deep_liquidation_analyzer.py). -/
structure DeepLevel where
  price : ℚ
  value_usd : ℚ
  type : String
  timeframe : String
  distance_from_price_pct : ℚ
deriving DecidableEq

/-- Insert into a level list sorted descending by `value_usd`
(`levels.sort(key=lambda x: x.value_usd, reverse=True)`). -/
def insertLevelValueDesc (x : DeepLevel) : List DeepLevel → List DeepLevel
  | [] => [x]
  | y :: ys => if y.value_usd ≤ x.value_usd then x :: y :: ys else y :: insertLevelValueDesc x ys

/-- Sort a level list descending by `value_usd`. -/
def sortLevelValueDesc (l : List DeepLevel) : List DeepLevel := l.foldr insertLevelValueDesc []

/-- `DeepLiquidationAnalyzer._process_all_levels`: per timeframe, tag every
long and short (price, value) pair as a `DeepLevel` — with no filtering by
which side of the current price it lies on — and sort by value. -/
def processAllLevels (allData : List (String × SideData)) (cp : ℚ) :
    List (String × List DeepLevel) :=
  allData.map (fun td =>
    (td.1, sortLevelValueDesc (
      td.2.longs.map (fun pv =>
        { price := pv.1, value_usd := pv.2, type := "long", timeframe := td.1,
          distance_from_price_pct := distancePct pv.1 cp }) ++
      td.2.shorts.map (fun pv =>
        { price := pv.1, value_usd := pv.2, type := "short", timeframe := td.1,
          distance_from_price_pct := distancePct pv.1 cp }))))

/-- A major-cluster dict produced by
`DeepLiquidationAnalyzer._find_major_clusters`. -/
structure DeepCluster where
  price : ℚ
  value_usd : ℚ
  value_millions : ℚ
  distance_pct : ℚ
  timeframe : String
deriving DecidableEq

/-- `DeepLiquidationAnalyzer._find_major_clusters`: gather every level of
the requested side across all timeframes (no price-side filter), sort by
value and keep the top 10. -/
def findMajorClusters (levelsByTf : List (String × List DeepLevel)) (liqType : String) :
    List DeepCluster :=
  let allLevels := levelsByTf.foldl
    (fun acc tl => acc ++ tl.2.filter (fun l => decide (l.type = liqType))) []
  ((sortLevelValueDesc allLevels).take 10).map (fun l =>
    { price := l.price, value_usd := l.value_usd, value_millions := l.value_usd / 1000000,
      distance_pct := l.distance_from_price_pct, timeframe := l.timeframe })

/-- `WhaleTargetPrediction`: the `price`/`direction`/`confidence` fields of
the dict returned by `_predict_whale_target` (the `reasoning` f-string is
elided). -/
structure WhalePrediction where
  price : ℚ
  direction : String
  confidence : String
deriving DecidableEq

/-- Python's `min(clusters, key=lambda x: x['distance_pct'])`: first
minimal element of a nonempty list. -/
def minByDistance : List DeepCluster → Option DeepCluster
  | [] => none
  | c :: rest => some (rest.foldl (fun a x => if x.distance_pct < a.distance_pct then x else a) c)

/-- `DeepLiquidationAnalyzer._predict_whale_target`.  Returns `none` when
the source raises: in the heavy-imbalance branches the reasoning f-string
subscripts the nearest cluster unconditionally, so a missing cluster there
is a `TypeError`, not a prediction. -/
def predictWhaleTarget (longClusters shortClusters : List DeepCluster)
    (imbalance currentPrice : ℚ) : Option WhalePrediction :=
  let nearestLong := minByDistance longClusters
  let nearestShort := minByDistance shortClusters
  let conf := if 30 < |imbalance| then "HIGH" else "MEDIUM"
  if 30 < imbalance then
    match nearestShort with
    | some s => some { price := s.price, direction := "UP", confidence := conf }
    | none => none
  else if imbalance < -30 then
    match nearestLong with
    | some l => some { price := l.price, direction := "DOWN", confidence := conf }
    | none => none
  else
    match nearestShort, nearestLong with
    | some s, some l =>
      if l.value_usd < s.value_usd then
        some { price := s.price, direction := "UP", confidence := conf }
      else
        some { price := l.price, direction := "DOWN", confidence := conf }
    | _, _ => some { price := currentPrice, direction := "RANGE", confidence := conf }

/-- Insert into a cluster list sorted descending by price. -/
def insertClusterPriceDesc (x : DeepCluster) : List DeepCluster → List DeepCluster
  | [] => [x]
  | y :: ys => if y.price ≤ x.price then x :: y :: ys else y :: insertClusterPriceDesc x ys

/-- Sort a cluster list descending by price. -/
def sortClusterPriceDesc (l : List DeepCluster) : List DeepCluster :=
  l.foldr insertClusterPriceDesc []

/-- Insert into a cluster list sorted ascending by price. -/
def insertClusterPriceAsc (x : DeepCluster) : List DeepCluster → List DeepCluster
  | [] => [x]
  | y :: ys => if x.price ≤ y.price then x :: y :: ys else y :: insertClusterPriceAsc x ys

/-- Sort a cluster list ascending by price. -/
def sortClusterPriceAsc (l : List DeepCluster) : List DeepCluster :=
  l.foldr insertClusterPriceAsc []

/-- `DeepLiquidationAnalyzer._calculate_scale_zones`: up to four clusters
strictly on the entry side of the price, each assigned the fixed
`[30, 30, 25, 15]` share for its index (no renormalisation when fewer than
four targets exist). -/
def deepCalculateScaleZones (longClusters shortClusters : List DeepCluster)
    (direction : String) (currentPrice : ℚ) : List Zone :=
  if direction = "LONG" then
    let targets := (sortClusterPriceDesc
      (longClusters.filter (fun c => decide (c.price < currentPrice)))).take 4
    List.zipWith (fun (t : DeepCluster) pct => Zone.mk t.price pct) targets [30, 30, 25, 15]
  else if direction = "SHORT" then
    let targets := (sortClusterPriceAsc
      (shortClusters.filter (fun c => decide (currentPrice < c.price)))).take 4
    List.zipWith (fun (t : DeepCluster) pct => Zone.mk t.price pct) targets [30, 30, 25, 15]
  else []

/-- `DeepLiquidationAnalyzer._get_current_price`: a larger fixed mock
price table, defaulting to 100.0 for unknown symbols. -/
def deepGetCurrentPrice (symbol : String) : ℚ :=
  if symbol = "BTC" then 43250
  else if symbol = "ETH" then 2280
  else if symbol = "SOL" then 197 / 2
  else if symbol = "BNB" then 315
  else if symbol = "XRP" then 13 / 25
  else if symbol = "DOGE" then 81 / 1000
  else if symbol = "ADA" then 57 / 200
  else if symbol = "AVAX" then 213 / 10
  else if symbol = "MATIC" then 18 / 25
  else if symbol = "LINK" then 57 / 4
  else 100

/-- A single-timeframe sample heatmap: one long level at 90 and one short
level at 110. -/
def sampleHeat : List (Option SideData) := [some ⟨[(90, 2000000)], [(110, 3000000)]⟩]

/-- Sample screener output with a STRONG_LONG bias. -/
def sampleScreener : ScreenerData := ⟨10, 500, 50, 90, "STRONG_LONG"⟩

/-- Sample oversold RSI data. -/
def sampleRsi : RSIData := ⟨25, 25, 25, 25, "OVERSOLD", 90⟩

/-- The fused signal for the sample inputs at current price 100, with the
cluster lists produced by `_process_clusters`. -/
def sampleSignal : FusedSignal :=
  generateSignal 100 sampleScreener
    ⟨"UP", "HIGH", (processClusters sampleHeat 100 1000000).1,
      (processClusters sampleHeat 100 1000000).2⟩ sampleRsi

/-! ## Theorems -/

/-- C6 counterexample: on priceChangePct=+10, volumeChangePct=+500,
oiChangePct=+50 with the default thresholds, the momentum score is 100
(50 + 10·2 + min(20, 500/20) + 50/5 + 10 confluence = 110, clamped), which
is not within 5 of 85. -/
theorem momentum_scenario1_score_not_near_85 :
    calculateMomentumScore 200 50 10 500 50 = 100 ∧
    ¬ |calculateMomentumScore 200 50 10 500 50 - 85| ≤ 5 := by
  have h : calculateMomentumScore 200 50 10 500 50 = 100 := by
    norm_num [calculateMomentumScore, ratTrunc]
  rw [h]
  norm_num

/-- C6 (amended): on priceChangePct=+10, volumeChangePct=+500,
oiChangePct=+50 with the default thresholds, the Momentum Scorer returns
score 100 (clamped) and bias STRONG_LONG. -/
theorem momentum_scenario1_score_100_strong_long :
    calculateMomentumScore 200 50 10 500 50 = 100 ∧
    determineBias 10 500 50 (calculateMomentumScore 200 50 10 500 50) = "STRONG_LONG" := by
  have h : calculateMomentumScore 200 50 10 500 50 = 100 := by
    norm_num [calculateMomentumScore, ratTrunc]
  rw [h]
  norm_num [determineBias]

/-- C8: for every input (any real change percentages, any thresholds) the
momentum score lies in [0,100], and scorer and bias are pure functions of
their inputs. -/
theorem momentum_score_range_and_pure (volThresh oiThresh p v oi : ℚ) :
    0 ≤ calculateMomentumScore volThresh oiThresh p v oi ∧
    calculateMomentumScore volThresh oiThresh p v oi ≤ 100 ∧
    calculateMomentumScore volThresh oiThresh p v oi =
      calculateMomentumScore volThresh oiThresh p v oi ∧
    determineBias p v oi (calculateMomentumScore volThresh oiThresh p v oi) =
      determineBias p v oi (calculateMomentumScore volThresh oiThresh p v oi) := by
  refine ⟨?_, ?_, rfl, rfl⟩ <;> simp only [calculateMomentumScore]
  · exact le_max_left _ _
  · exact max_le (by norm_num) (min_le_left _ _)

/-- C9: for every n in [1,20], `_distribute_position(n)` returns n shares
summing to exactly 100. -/
theorem distributePosition_length_sum (n : ℕ) (h1 : 1 ≤ n) (h2 : n ≤ 20) :
    (distributePosition n).length = n ∧ (distributePosition n).sum = 100 := by
  interval_cases n <;> exact ⟨by decide, by decide⟩

/-- C9 witness at n = 7 (even split 14·7 = 98, remainder 2 to the first
two entries). -/
theorem distributePosition_length_sum_witness :
    (distributePosition 7).length = 7 ∧ (distributePosition 7).sum = 100 :=
  distributePosition_length_sum 7 (by decide) (by decide)

/-- C10: both mock price lookups are total — every symbol gets a nonzero
price (so the caller's `if not current_price: continue` skip never fires),
and any symbol outside the fixed table gets the fictitious price 100. -/
theorem getCurrentPrice_total_with_default (symbol : String) :
    masterGetCurrentPrice symbol ≠ 0 ∧
    deepGetCurrentPrice symbol ≠ 0 ∧
    (symbol ≠ "BTC" → symbol ≠ "ETH" → symbol ≠ "SOL" → symbol ≠ "BNB" →
      masterGetCurrentPrice symbol = 100) ∧
    (symbol ≠ "BTC" → symbol ≠ "ETH" → symbol ≠ "SOL" → symbol ≠ "BNB" →
      symbol ≠ "XRP" → symbol ≠ "DOGE" → symbol ≠ "ADA" → symbol ≠ "AVAX" →
      symbol ≠ "MATIC" → symbol ≠ "LINK" → deepGetCurrentPrice symbol = 100) := by
  refine ⟨?_, ?_, ?_, ?_⟩
  · unfold masterGetCurrentPrice
    split_ifs <;> norm_num
  · unfold deepGetCurrentPrice
    split_ifs <;> norm_num
  · intro h1 h2 h3 h4
    unfold masterGetCurrentPrice
    rw [if_neg h1, if_neg h2, if_neg h3, if_neg h4]
  · intro h1 h2 h3 h4 h5 h6 h7 h8 h9 h10
    unfold deepGetCurrentPrice
    rw [if_neg h1, if_neg h2, if_neg h3, if_neg h4, if_neg h5, if_neg h6,
      if_neg h7, if_neg h8, if_neg h9, if_neg h10]

/-- C10 witness: a symbol outside both tables is priced 100 and never
skipped. -/
theorem getCurrentPrice_total_with_default_witness :
    masterGetCurrentPrice "PEPE" ≠ 0 ∧ deepGetCurrentPrice "PEPE" ≠ 0 ∧
    masterGetCurrentPrice "PEPE" = 100 ∧ deepGetCurrentPrice "PEPE" = 100 := by
  obtain ⟨h1, h2, h3, h4⟩ := getCurrentPrice_total_with_default "PEPE"
  exact ⟨h1, h2,
    h3 (by decide) (by decide) (by decide) (by decide),
    h4 (by decide) (by decide) (by decide) (by decide) (by decide)
      (by decide) (by decide) (by decide) (by decide) (by decide)⟩

/-- C3: whatever the momentum bias, RSI data and the rest of the
liquidation analysis, a liquidation direction of RANGE forces the fused
action to NEUTRAL. -/
theorem range_direction_forces_neutral (currentPrice : ℚ) (screener : ScreenerData)
    (liquidation : LiquidationAnalysis) (rsi : RSIData)
    (h : liquidation.direction = "RANGE") :
    (generateSignal currentPrice screener liquidation rsi).action = "NEUTRAL" := by
  unfold generateSignal
  rw [h]
  simp

/-- C3 witness: a STRONG_LONG bias is overridden to NEUTRAL by a RANGE
liquidation direction. -/
theorem range_direction_forces_neutral_witness :
    (generateSignal 100 ⟨10, 500, 50, 90, "STRONG_LONG"⟩
      ⟨"RANGE", "LOW", [], []⟩ ⟨50, 50, 50, 50, "NEUTRAL", 50⟩).action = "NEUTRAL" :=
  range_direction_forces_neutral 100 _ _ _ rfl

/-- The confidence component of `confirm_direction_with_rsi`, flattened:
the divergence checks touch only the reasons, and the specific-timeframe
checks overwrite the status-based confidence. -/
theorem confirmDirectionWithRsi_fst (r : RSIData) (dir : String) :
    (confirmDirectionWithRsi r dir).1 =
      if 45 ≤ r.rsi_4h ∧ r.rsi_4h ≤ 55 then "LOW"
      else if dir = "UP" then
        if r.rsi_4h < 35 ∧ r.rsi_1d < 40 then "HIGH"
        else if r.rsi_1h < 30 then "MEDIUM"
        else if r.status = "OVERSOLD" ∨ r.status = "WEAK" then "HIGH" else "LOW"
      else if dir = "DOWN" then
        if 65 < r.rsi_4h ∧ 60 < r.rsi_1d then "HIGH"
        else if 70 < r.rsi_1h then "MEDIUM"
        else if r.status = "OVERBOUGHT" ∨ r.status = "STRONG" then "HIGH" else "LOW"
      else "LOW" := by
  unfold confirmDirectionWithRsi
  split_ifs <;> rfl

/-- C7 counterexample: RSI values 1h=25, 4h=40, 12h=25, 1d=45 give status
WEAK (two oversold timeframes) and 4h=40 is outside [45,55], yet
confirming UP yields MEDIUM, not HIGH: the `elif rsi_1h < 30` branch
overwrites the HIGH set for the WEAK status, because `4h < 35 and 1d < 40`
does not hold while `1h < 30` does. -/
theorem rsi_confirm_up_weak_counterexample :
    determineRsiStatus 30 70 25 40 25 45 = "WEAK" ∧
    ¬(45 ≤ (40 : ℚ) ∧ (40 : ℚ) ≤ 55) ∧
    (confirmDirectionWithRsi ⟨25, 40, 25, 45, "WEAK", 60⟩ "UP").1 = "MEDIUM" ∧
    "MEDIUM" ≠ "HIGH" := by
  refine ⟨?_, by norm_num, ?_, by decide⟩
  · norm_num [determineRsiStatus]
  · norm_num [confirmDirectionWithRsi]

/-- C7 (amended): when the 4h RSI is in [45,55] the confidence is forced
to LOW with reason "4H RSI is neutral"; outside that band, an OVERSOLD or
WEAK status confirms UP with HIGH confidence unless the specific-timeframe
check downgrades it — when `4h < 35 and 1d < 40` fails but `1h < 30`
holds, the result is MEDIUM; mirrored for DOWN with OVERBOUGHT or STRONG
(`4h > 65 and 1d > 60`, `1h > 70`). -/
theorem rsi_confirm_amended (r : RSIData) (dir : String) :
    ((45 ≤ r.rsi_4h ∧ r.rsi_4h ≤ 55) →
      (confirmDirectionWithRsi r dir).1 = "LOW" ∧
      "4H RSI is neutral" ∈ (confirmDirectionWithRsi r dir).2) ∧
    (¬(45 ≤ r.rsi_4h ∧ r.rsi_4h ≤ 55) → dir = "UP" →
      (r.status = "OVERSOLD" ∨ r.status = "WEAK") →
      (((r.rsi_4h < 35 ∧ r.rsi_1d < 40) ∨ ¬ r.rsi_1h < 30 →
          (confirmDirectionWithRsi r dir).1 = "HIGH") ∧
        (¬(r.rsi_4h < 35 ∧ r.rsi_1d < 40) → r.rsi_1h < 30 →
          (confirmDirectionWithRsi r dir).1 = "MEDIUM"))) ∧
    (¬(45 ≤ r.rsi_4h ∧ r.rsi_4h ≤ 55) → dir = "DOWN" →
      (r.status = "OVERBOUGHT" ∨ r.status = "STRONG") →
      (((65 < r.rsi_4h ∧ 60 < r.rsi_1d) ∨ ¬ 70 < r.rsi_1h →
          (confirmDirectionWithRsi r dir).1 = "HIGH") ∧
        (¬(65 < r.rsi_4h ∧ 60 < r.rsi_1d) → 70 < r.rsi_1h →
          (confirmDirectionWithRsi r dir).1 = "MEDIUM"))) := by
  refine ⟨fun hn => ?_, fun hn hdir hst => ?_, fun hn hdir hst => ?_⟩
  · constructor
    · rw [confirmDirectionWithRsi_fst, if_pos hn]
    · unfold confirmDirectionWithRsi
      rw [if_pos hn]
      simp
  · subst hdir
    rw [confirmDirectionWithRsi_fst]
    constructor
    · rintro (h45 | h1h) <;> split_ifs <;> first | rfl | tauto
    · intro h45 h1h
      split_ifs <;> first | rfl | tauto
  · subst hdir
    rw [confirmDirectionWithRsi_fst]
    constructor
    · rintro (h45 | h1h) <;> split_ifs <;> first | rfl | tauto
    · intro h45 h1h
      split_ifs <;> first | rfl | tauto

/-- C7 witness: oversold RSI values (1h=20, 4h=25, 12h=20, 1d=30, status
OVERSOLD) confirm the UP direction with HIGH confidence, and a 4h RSI of
50 forces LOW with the neutral reason. -/
theorem rsi_confirm_amended_witness :
    (confirmDirectionWithRsi ⟨20, 25, 20, 30, "OVERSOLD", 50⟩ "UP").1 = "HIGH" ∧
    (confirmDirectionWithRsi ⟨20, 50, 20, 30, "OVERSOLD", 50⟩ "UP").1 = "LOW" ∧
    "4H RSI is neutral" ∈ (confirmDirectionWithRsi ⟨20, 50, 20, 30, "OVERSOLD", 50⟩ "UP").2 := by
  refine ⟨?_, ?_, ?_⟩
  · exact ((rsi_confirm_amended ⟨20, 25, 20, 30, "OVERSOLD", 50⟩ "UP").2.1
      (by norm_num) rfl (Or.inl rfl)).1 (Or.inl (by norm_num))
  · exact ((rsi_confirm_amended ⟨20, 50, 20, 30, "OVERSOLD", 50⟩ "UP").1
      (by norm_num)).1
  · exact ((rsi_confirm_amended ⟨20, 50, 20, 30, "OVERSOLD", 50⟩ "UP").1
      (by norm_num)).2

/-- C5 counterexample: with balanced imbalance (0) and a single short
cluster but no long cluster, `_predict_whale_target` returns RANGE at the
current price even though one nearest cluster exists — the balanced branch
requires BOTH clusters to predict a direction, not at least one. -/
theorem whale_target_range_despite_cluster_counterexample :
    predictWhaleTarget [] [⟨110, 5000000, 5, 10, "24h"⟩] 0 100 =
      some ⟨100, "RANGE", "MEDIUM"⟩ ∧
    ([(⟨110, 5000000, 5, 10, "24h"⟩ : DeepCluster)] : List DeepCluster) ≠ [] := by
  constructor
  · norm_num [predictWhaleTarget, minByDistance]
  · simp

/-- C5 (amended): in the balanced case (|imbalancePct| ≤ 30) the
prediction is RANGE at the current price whenever at least one of the two
nearest clusters is missing, and follows the side of the larger nearest
cluster's valueUsd when both exist; every produced prediction has
confidence HIGH when |imbalancePct| > 30 and MEDIUM otherwise. -/
theorem whale_target_amended (longC shortC : List DeepCluster) (imb cp : ℚ) :
    (|imb| ≤ 30 →
      ((longC = [] ∨ shortC = []) →
        predictWhaleTarget longC shortC imb cp = some ⟨cp, "RANGE", "MEDIUM"⟩) ∧
      (∀ nl ns, minByDistance longC = some nl → minByDistance shortC = some ns →
        predictWhaleTarget longC shortC imb cp =
          some (if nl.value_usd < ns.value_usd then ⟨ns.price, "UP", "MEDIUM"⟩
            else ⟨nl.price, "DOWN", "MEDIUM"⟩))) ∧
    (∀ p, predictWhaleTarget longC shortC imb cp = some p →
      p.confidence = if 30 < |imb| then "HIGH" else "MEDIUM") := by
  constructor
  · intro habs
    have hb := abs_le.mp habs
    have h1 : ¬ 30 < imb := not_lt.mpr hb.2
    have h2 : ¬ imb < -30 := not_lt.mpr hb.1
    have h3 : ¬ 30 < |imb| := not_lt.mpr habs
    constructor
    · intro hone
      unfold predictWhaleTarget
      rcases hone with h | h
      · subst h
        rcases hS : minByDistance shortC with _ | s <;>
          simp only [minByDistance, hS, if_neg h1, if_neg h2, if_neg h3] <;> rfl
      · subst h
        rcases hL : minByDistance longC with _ | l <;>
          simp only [minByDistance, hL, if_neg h1, if_neg h2, if_neg h3] <;> rfl
    · intro nl ns hL hS
      unfold predictWhaleTarget
      simp only [hL, hS, if_neg h1, if_neg h2, if_neg h3]
      split_ifs <;> rfl
  · intro p hp
    unfold predictWhaleTarget at hp
    rcases hL : minByDistance longC with _ | nl <;>
      rcases hS : minByDistance shortC with _ | ns <;>
      simp only [hL, hS] at hp <;>
      split_ifs at hp <;>
      (cases hp <;> split_ifs <;> first | rfl | contradiction)

/-- C5 witness: balanced imbalance with both nearest clusters present —
the larger (short) cluster's side wins, with MEDIUM confidence. -/
theorem whale_target_amended_witness :
    |(0 : ℚ)| ≤ 30 ∧
    predictWhaleTarget [⟨90, 1000000, 1, 10, "12h"⟩] [⟨105, 2000000, 2, 5, "12h"⟩] 0 100 =
      some ⟨105, "UP", "MEDIUM"⟩ := by
  refine ⟨by norm_num, ?_⟩
  have h := ((whale_target_amended [⟨90, 1000000, 1, 10, "12h"⟩]
    [⟨105, 2000000, 2, 5, "12h"⟩] 0 100).1 (by norm_num)).2
    ⟨90, 1000000, 1, 10, "12h"⟩ ⟨105, 2000000, 2, 5, "12h"⟩ rfl rfl
  rw [if_pos (by norm_num)] at h
  exact h

/-- Summing the position percentages of zones zipped from levels and a
percentage list takes exactly the first `as.length` percentages. -/
theorem sumPct_zipWith {α : Type} (f : α → ℚ) (as : List α) (pcts : List ℤ) :
    sumPct (List.zipWith (fun a pct => Zone.mk (f a) pct) as pcts) =
      (pcts.take as.length).sum := by
  induction as generalizing pcts with
  | nil => simp [sumPct]
  | cons a as ih =>
    cases pcts with
    | nil => simp [sumPct]
    | cons p ps =>
      simp only [List.zipWith, sumPct, List.map_cons, List.sum_cons, List.length_cons,
        List.take_succ_cons] at *
      rw [ih]

/-- Inserting preserves lengths for the strength-descending sort. -/
theorem length_insertSndDesc (x : ℚ × ℚ) (l : List (ℚ × ℚ)) :
    (insertSndDesc x l).length = l.length + 1 := by
  induction l with
  | nil => rfl
  | cons y ys ih =>
    simp only [insertSndDesc]
    split_ifs <;> simp [ih]

/-- The strength-descending sort preserves length. -/
theorem length_sortSndDesc (l : List (ℚ × ℚ)) : (sortSndDesc l).length = l.length := by
  induction l with
  | nil => rfl
  | cons y ys ih =>
    simp only [sortSndDesc, List.foldr_cons] at *
    rw [length_insertSndDesc, ih, List.length_cons]

/-- Inserting preserves lengths for the price-descending cluster sort. -/
theorem length_insertClusterPriceDesc (x : DeepCluster) (l : List DeepCluster) :
    (insertClusterPriceDesc x l).length = l.length + 1 := by
  induction l with
  | nil => rfl
  | cons y ys ih =>
    simp only [insertClusterPriceDesc]
    split_ifs <;> simp [ih]

/-- The price-descending cluster sort preserves length. -/
theorem length_sortClusterPriceDesc (l : List DeepCluster) :
    (sortClusterPriceDesc l).length = l.length := by
  induction l with
  | nil => rfl
  | cons y ys ih =>
    simp only [sortClusterPriceDesc, List.foldr_cons] at *
    rw [length_insertClusterPriceDesc, ih, List.length_cons]

/-- Inserting preserves lengths for the price-ascending cluster sort. -/
theorem length_insertClusterPriceAsc (x : DeepCluster) (l : List DeepCluster) :
    (insertClusterPriceAsc x l).length = l.length + 1 := by
  induction l with
  | nil => rfl
  | cons y ys ih =>
    simp only [insertClusterPriceAsc]
    split_ifs <;> simp [ih]

/-- The price-ascending cluster sort preserves length. -/
theorem length_sortClusterPriceAsc (l : List DeepCluster) :
    (sortClusterPriceAsc l).length = l.length := by
  induction l with
  | nil => rfl
  | cons y ys ih =>
    simp only [sortClusterPriceAsc, List.foldr_cons] at *
    rw [length_insertClusterPriceAsc, ih, List.length_cons]

/-- For at most four entries the distributed percentages are used in full
and sum to 100. -/
theorem distributePosition_take_sum (n : ℕ) (h1 : 1 ≤ n) (h4 : n ≤ 4) :
    ((distributePosition n).take (min 4 n)).sum = 100 := by
  interval_cases n <;> decide

/-- The fixed `[30, 30, 25, 15]` deep-zone shares sum to 100 exactly when
four targets receive them. -/
theorem deep_zipWith_sum (l : List DeepCluster) (h : 4 ≤ l.length) :
    sumPct (List.zipWith (fun (t : DeepCluster) pct => Zone.mk t.price pct)
      (l.take 4) [30, 30, 25, 15]) = 100 := by
  rw [sumPct_zipWith DeepCluster.price, List.length_take, min_eq_left h]
  decide

/-- C2 counterexample: the deep analyzer's scale zones for a LONG
direction with a single long cluster below price assign only the first
share of `[30, 30, 25, 15]`: the zone list is non-empty but its
percentages sum to 30, outside the ±5 tolerance around 100. -/
theorem deep_scale_zones_sum_counterexample :
    deepCalculateScaleZones [⟨90, 5000000, 5, 10, "24h"⟩] [] "LONG" 100 =
      [⟨90, 30⟩] ∧
    sumPct (deepCalculateScaleZones [⟨90, 5000000, 5, 10, "24h"⟩] [] "LONG" 100) = 30 ∧
    ¬ |(30 : ℤ) - 100| ≤ 5 := by
  have h : deepCalculateScaleZones [⟨90, 5000000, 5, 10, "24h"⟩] [] "LONG" 100 =
      [⟨90, 30⟩] := by
    norm_num [deepCalculateScaleZones, sortClusterPriceDesc, insertClusterPriceDesc]
  refine ⟨h, ?_, by decide⟩
  rw [h]
  decide

/-- C2 (amended): the scale-in percentages sum to exactly 100 for
LiquidationAnalyzer zones whenever the candidate support/resistance lists
have at most 4 entries (beyond that only the first four shares of an
n-way split are used and the sum falls short), and for
DeepLiquidationAnalyzer zones whenever at least 4 clusters lie strictly
on the entry side of the current price (with fewer, the fixed
`[30, 30, 25, 15]` shares are only partially used). -/
theorem scale_zones_sum_amended (direction : String)
    (longC shortC : List LiqCluster) (dlongC dshortC : List DeepCluster) (cp : ℚ) :
    ((findSupportLevels longC).length ≤ 4 →
      (findResistanceLevels shortC).length ≤ 4 →
      liqCalculateScaleZones direction longC shortC ≠ [] →
      sumPct (liqCalculateScaleZones direction longC shortC) = 100) ∧
    (4 ≤ (dlongC.filter (fun c => decide (c.price < cp))).length →
      sumPct (deepCalculateScaleZones dlongC dshortC "LONG" cp) = 100) ∧
    (4 ≤ (dshortC.filter (fun c => decide (cp < c.price))).length →
      sumPct (deepCalculateScaleZones dlongC dshortC "SHORT" cp) = 100) := by
  refine ⟨?_, ?_, ?_⟩
  · intro hsup hres hne
    unfold liqCalculateScaleZones at hne ⊢
    split_ifs at hne ⊢ with hup hdown
    · rcases hl : findSupportLevels longC with _ | ⟨a, as⟩
      · rw [hl] at hne
        exact absurd rfl hne
      · rw [hl] at hsup
        exact (sumPct_zipWith Prod.fst ((a :: as).take 4)
          (distributePosition (a :: as).length)).trans
          (by rw [List.length_take]; exact distributePosition_take_sum _ (by simp) hsup)
    · rcases hl : findResistanceLevels shortC with _ | ⟨a, as⟩
      · rw [hl] at hne
        exact absurd rfl hne
      · rw [hl] at hres
        exact (sumPct_zipWith Prod.fst ((a :: as).take 4)
          (distributePosition (a :: as).length)).trans
          (by rw [List.length_take]; exact distributePosition_take_sum _ (by simp) hres)
    · rcases hS : findSupportLevels longC with _ | ⟨sp, stl⟩ <;>
        rcases hR : findResistanceLevels shortC with _ | ⟨rp, rtl⟩ <;>
        rw [hS, hR] at hne <;>
        first
          | exact absurd rfl hne
          | rfl
  · intro h4
    unfold deepCalculateScaleZones
    rw [if_pos rfl]
    exact deep_zipWith_sum _ (by rw [length_sortClusterPriceDesc]; exact h4)
  · intro h4
    unfold deepCalculateScaleZones
    rw [if_neg (by decide), if_pos rfl]
    exact deep_zipWith_sum _ (by rw [length_sortClusterPriceAsc]; exact h4)

/-- C2 witness: two support levels within 20% for the liquidation
analyzer's UP zones (60/40 split), and four long clusters below price for
the deep analyzer's LONG zones (30/30/25/15). -/
theorem scale_zones_sum_amended_witness :
    sumPct (liqCalculateScaleZones "UP"
      [⟨95, 2000000, "long", 2000000, 5⟩, ⟨90, 3000000, "long", 5000000, 10⟩] []) = 100 ∧
    sumPct (deepCalculateScaleZones
      [⟨95, 1000000, 1, 5, "12h"⟩, ⟨90, 2000000, 2, 10, "24h"⟩,
       ⟨85, 3000000, 3, 15, "3d"⟩, ⟨80, 4000000, 4, 20, "7d"⟩] [] "LONG" 100) = 100 := by
  have h := scale_zones_sum_amended "UP"
    [⟨95, 2000000, "long", 2000000, 5⟩, ⟨90, 3000000, "long", 5000000, 10⟩] []
    [⟨95, 1000000, 1, 5, "12h"⟩, ⟨90, 2000000, 2, 10, "24h"⟩,
     ⟨85, 3000000, 3, 15, "3d"⟩, ⟨80, 4000000, 4, 20, "7d"⟩] [] 100
  refine ⟨h.1 ?_ ?_ ?_, h.2.1 ?_⟩
  · norm_num [findSupportLevels, sortSndDesc, insertSndDesc]
  · norm_num [findResistanceLevels, sortSndDesc]
  · norm_num [liqCalculateScaleZones, findSupportLevels, sortSndDesc, insertSndDesc,
      distributePosition]
    simp
  · norm_num

/-- Keys added by `aggAdd` satisfy any predicate the existing keys and the
new key satisfy. -/
theorem aggAdd_keys {P : ℚ → Prop} : ∀ (m : List (ℚ × ℚ)) (p v : ℚ),
    (∀ x ∈ m, P x.1) → P p → ∀ x ∈ aggAdd m p v, P x.1 := by
  intro m
  induction m with
  | nil =>
    intro p v _ hp x hx
    rw [aggAdd] at hx
    rcases List.mem_singleton.mp hx with rfl
    exact hp
  | cons y ys ih =>
    intro p v hm hp x hx
    rw [aggAdd] at hx
    split_ifs at hx with h
    · rcases List.mem_cons.mp hx with rfl | hx'
      · exact hm y (List.mem_cons_self _ _)
      · exact hm _ (List.mem_cons_of_mem _ hx')
    · rcases List.mem_cons.mp hx with rfl | hx'
      · exact hm _ (List.mem_cons_self _ _)
      · exact ih p v (fun z hz => hm z (List.mem_cons_of_mem _ hz)) hp x hx'

/-- The guarded aggregation fold only accumulates keys satisfying the
guard predicate. -/
theorem aggFold_keys (P : ℚ → Prop) [DecidablePred P] :
    ∀ (pvs : List (ℚ × ℚ)) (m : List (ℚ × ℚ)),
    (∀ x ∈ m, P x.1) →
    ∀ x ∈ pvs.foldl (fun acc pv => if P pv.1 then aggAdd acc pv.1 pv.2 else acc) m, P x.1 := by
  intro pvs
  induction pvs with
  | nil =>
    intro m hm
    exact hm
  | cons pv rest ih =>
    intro m hm x hx
    rw [List.foldl_cons] at hx
    by_cases h : P pv.1
    · rw [if_pos h] at hx
      exact ih _ (aggAdd_keys m pv.1 pv.2 hm h) x hx
    · rw [if_neg h] at hx
      exact ih _ hm x hx

/-- The per-timeframe aggregation fold of `_process_clusters` only
accumulates keys satisfying the side guard. -/
theorem heatFold_keys (P : ℚ → Prop) [DecidablePred P] (side : SideData → List (ℚ × ℚ)) :
    ∀ (heat : List (Option SideData)) (m : List (ℚ × ℚ)),
    (∀ x ∈ m, P x.1) →
    ∀ x ∈ heat.foldl (fun acc tf =>
        match tf with
        | none => acc
        | some d => (side d).foldl
            (fun acc pv => if P pv.1 then aggAdd acc pv.1 pv.2 else acc) acc) m,
      P x.1 := by
  intro heat
  induction heat with
  | nil =>
    intro m hm
    exact hm
  | cons tf rest ih =>
    intro m hm x hx
    rw [List.foldl_cons] at hx
    cases tf with
    | none => exact ih m hm x hx
    | some d => exact ih _ (aggFold_keys P (side d) m hm) x hx

/-- Membership through descending-key insertion. -/
theorem mem_insertKeyDesc {x y : ℚ × ℚ} : ∀ {l : List (ℚ × ℚ)},
    y ∈ insertKeyDesc x l → y = x ∨ y ∈ l := by
  intro l
  induction l with
  | nil =>
    intro h
    rw [insertKeyDesc] at h
    exact Or.inl (List.mem_singleton.mp h)
  | cons z zs ih =>
    intro h
    rw [insertKeyDesc] at h
    split_ifs at h
    · exact List.mem_cons.mp h
    · rcases List.mem_cons.mp h with rfl | h'
      · exact Or.inr (List.mem_cons_self _ _)
      · rcases ih h' with h'' | h''
        · exact Or.inl h''
        · exact Or.inr (List.mem_cons_of_mem _ h'')

/-- The descending-key sort creates no new elements. -/
theorem mem_sortKeyDesc {y : ℚ × ℚ} : ∀ {l : List (ℚ × ℚ)}, y ∈ sortKeyDesc l → y ∈ l := by
  intro l
  induction l with
  | nil =>
    intro h
    exact h
  | cons z zs ih =>
    intro h
    rcases mem_insertKeyDesc h with rfl | h'
    · exact List.mem_cons_self _ _
    · exact List.mem_cons_of_mem _ (ih h')

/-- Membership through ascending-key insertion. -/
theorem mem_insertKeyAsc {x y : ℚ × ℚ} : ∀ {l : List (ℚ × ℚ)},
    y ∈ insertKeyAsc x l → y = x ∨ y ∈ l := by
  intro l
  induction l with
  | nil =>
    intro h
    rw [insertKeyAsc] at h
    exact Or.inl (List.mem_singleton.mp h)
  | cons z zs ih =>
    intro h
    rw [insertKeyAsc] at h
    split_ifs at h
    · exact List.mem_cons.mp h
    · rcases List.mem_cons.mp h with rfl | h'
      · exact Or.inr (List.mem_cons_self _ _)
      · rcases ih h' with h'' | h''
        · exact Or.inl h''
        · exact Or.inr (List.mem_cons_of_mem _ h'')

/-- The ascending-key sort creates no new elements. -/
theorem mem_sortKeyAsc {y : ℚ × ℚ} : ∀ {l : List (ℚ × ℚ)}, y ∈ sortKeyAsc l → y ∈ l := by
  intro l
  induction l with
  | nil =>
    intro h
    exact h
  | cons z zs ih =>
    intro h
    rcases mem_insertKeyAsc h with rfl | h'
    · exact List.mem_cons_self _ _
    · exact List.mem_cons_of_mem _ (ih h')

/-- Every cluster built by the `_process_clusters` loop takes its price
from the aggregated level list. -/
theorem buildClusters_price (ty : String) (cp minV : ℚ) :
    ∀ (l : List (ℚ × ℚ)) (cum : ℚ) (c : LiqCluster), c ∈ buildClusters ty cp minV l cum →
    ∃ x ∈ l, c.price = x.1 := by
  intro l
  induction l with
  | nil =>
    intro cum c hc
    rw [buildClusters] at hc
    cases hc
  | cons y rest ih =>
    intro cum c hc
    rw [buildClusters] at hc
    split_ifs at hc with h
    · rcases List.mem_cons.mp hc with rfl | hc'
      · exact ⟨y, List.mem_cons_self _ _, rfl⟩
      · obtain ⟨x, hx, he⟩ := ih _ _ hc'
        exact ⟨x, List.mem_cons_of_mem _ hx, he⟩
    · obtain ⟨x, hx, he⟩ := ih _ _ hc
      exact ⟨x, List.mem_cons_of_mem _ hx, he⟩

/-- Long-side clusters from `_process_clusters` sit strictly below the
current price. -/
theorem processClusters_longs_lt (heat : List (Option SideData)) (cp minV : ℚ) :
    ∀ c ∈ (processClusters heat cp minV).1, c.price < cp := by
  intro c hc
  obtain ⟨x, hx, he⟩ := buildClusters_price "long" cp minV _ 0 c hc
  rw [he]
  exact heatFold_keys (· < cp) SideData.longs heat [] (by simp) x (mem_sortKeyDesc hx)

/-- Short-side clusters from `_process_clusters` sit strictly above the
current price. -/
theorem processClusters_shorts_gt (heat : List (Option SideData)) (cp minV : ℚ) :
    ∀ c ∈ (processClusters heat cp minV).2, cp < c.price := by
  intro c hc
  obtain ⟨x, hx, he⟩ := buildClusters_price "short" cp minV _ 0 c hc
  rw [he]
  exact heatFold_keys (cp < ·) SideData.shorts heat [] (by simp) x (mem_sortKeyAsc hx)

/-- C4 counterexample: `_find_major_clusters` applies no price-side
filter — a long-tagged level at price 150 above the current price 100
becomes a major long cluster. -/
theorem find_major_clusters_no_side_filter_counterexample :
    (findMajorClusters (processAllLevels [("24h", ⟨[(150, 5000000)], []⟩)] 100) "long").map
      DeepCluster.price = [150] ∧ ¬ ((150 : ℚ) < 100) := by
  constructor
  · norm_num [findMajorClusters, processAllLevels, sortLevelValueDesc, insertLevelValueDesc,
      distancePct]
  · norm_num

/-- C4 (amended): the side/price invariant holds for the clusters of
`LiquidationAnalyzer._process_clusters` (longs strictly below, shorts
strictly above the current price); it does not hold for
`DeepLiquidationAnalyzer._find_major_clusters`, which keeps levels on
either side of the price. -/
theorem process_clusters_side_invariant (heat : List (Option SideData)) (cp minV : ℚ) :
    (∀ c ∈ (processClusters heat cp minV).1, c.price < cp) ∧
    (∀ c ∈ (processClusters heat cp minV).2, cp < c.price) :=
  ⟨processClusters_longs_lt heat cp minV, processClusters_shorts_gt heat cp minV⟩

/-- C4 witness: a long level at 90 and a short level at 110 with current
price 100 yield clusters on the correct sides. -/
theorem process_clusters_side_invariant_witness :
    (⟨90, 2000000, "long", 2000000, 10⟩ : LiqCluster).price < 100 ∧
    (100 : ℚ) < (⟨110, 3000000, "short", 3000000, 10⟩ : LiqCluster).price := by
  have h := process_clusters_side_invariant
    [some ⟨[(90, 2000000)], [(110, 3000000)]⟩] 100 1000000
  refine ⟨h.1 _ ?_, h.2 _ ?_⟩
  · norm_num [processClusters, aggAdd, sortKeyDesc, insertKeyDesc, buildClusters, distancePct]
  · norm_num [processClusters, aggAdd, sortKeyAsc, insertKeyAsc, buildClusters, distancePct]

/-- Folding `min` over cluster prices never exceeds the seed. -/
theorem foldl_min_price_le : ∀ (l : List LiqCluster) (a : ℚ),
    l.foldl (fun acc x => min acc x.price) a ≤ a := by
  intro l
  induction l with
  | nil =>
    intro a
    exact le_refl a
  | cons x xs ih =>
    intro a
    rw [List.foldl_cons]
    exact le_trans (ih (min a x.price)) (min_le_left _ _)

/-- Folding `max` over cluster prices never drops below the seed. -/
theorem le_foldl_max_price : ∀ (l : List LiqCluster) (a : ℚ),
    a ≤ l.foldl (fun acc x => max acc x.price) a := by
  intro l
  induction l with
  | nil =>
    intro a
    exact le_refl a
  | cons x xs ih =>
    intro a
    rw [List.foldl_cons]
    exact le_trans (le_max_left _ _) (ih (max a x.price))

/-- The minimum cluster price of a nonempty list all of whose prices lie
below `cp` lies below `cp`. -/
theorem minClusterPrice_lt (cp : ℚ) (c : LiqCluster) (rest : List LiqCluster)
    (hall : ∀ x ∈ c :: rest, x.price < cp) : minClusterPrice (c :: rest) < cp :=
  lt_of_le_of_lt (foldl_min_price_le rest c.price) (hall c (List.mem_cons_self _ _))

/-- The maximum cluster price of a nonempty list all of whose prices lie
above `cp` lies above `cp`. -/
theorem lt_maxClusterPrice (cp : ℚ) (c : LiqCluster) (rest : List LiqCluster)
    (hall : ∀ x ∈ c :: rest, cp < x.price) : cp < maxClusterPrice (c :: rest) :=
  lt_of_lt_of_le (hall c (List.mem_cons_self _ _)) (le_foldl_max_price rest c.price)

/-- Scaling a value below a positive `cp` by 0.995 keeps it below `cp`. -/
theorem shrink_lt_cp (m cp : ℚ) (hcp : 0 < cp) (h : m < cp) : m * (995 / 1000) < cp := by
  rcases le_or_lt 0 m with hm | hm <;> nlinarith

/-- Scaling a value above a positive `cp` by 1.005 keeps it above `cp`. -/
theorem cp_lt_grow (m cp : ℚ) (hcp : 0 < cp) (h : cp < m) : cp < m * (1005 / 1000) := by
  nlinarith

/-- The risk/reward levels of `_calculate_risk_reward` respect the action:
stops below and targets above a positive current price for LONG, the
mirror for SHORT, and the sentinel values for NEUTRAL — provided the long
clusters sit below and the short clusters above the current price. -/
theorem calcRiskReward_invariant (action : String) (cp : ℚ)
    (longs shorts : List LiqCluster) (hcp : 0 < cp)
    (hl : ∀ c ∈ longs, c.price < cp) (hs : ∀ c ∈ shorts, cp < c.price) :
    (action = "LONG" → (calcRiskReward action cp longs shorts).1 < cp ∧
      ∀ tp ∈ (calcRiskReward action cp longs shorts).2, cp < tp) ∧
    (action = "SHORT" → cp < (calcRiskReward action cp longs shorts).1 ∧
      ∀ tp ∈ (calcRiskReward action cp longs shorts).2, tp < cp) ∧
    (action = "NEUTRAL" → (calcRiskReward action cp longs shorts).1 = cp ∧
      (calcRiskReward action cp longs shorts).2 = [cp]) := by
  refine ⟨fun ha => ?_, fun ha => ?_, fun ha => ?_⟩ <;> subst ha
  · constructor
    · rcases longs with _ | ⟨cl, restl⟩
      · show cp * (97 / 100) < cp
        nlinarith
      · show minClusterPrice (((cl :: restl)).take 3) * (995 / 1000) < cp
        rw [List.take_succ_cons]
        exact shrink_lt_cp _ cp hcp (minClusterPrice_lt cp cl (restl.take 2)
          (fun x hx => hl x (List.mem_cons.mpr ((List.mem_cons.mp hx).imp id
            (fun h => List.take_subset _ _ h)))))
    · rcases shorts with _ | ⟨cs, rests⟩
      · intro tp htp
        have htp2 : tp ∈ [cp * (102 / 100), cp * (105 / 100), cp * (110 / 100)] := htp
        simp only [List.mem_cons, List.not_mem_nil, or_false] at htp2
        rcases htp2 with rfl | rfl | rfl <;> nlinarith
      · intro tp htp
        obtain ⟨c, hc, rfl⟩ := List.mem_map.mp htp
        exact hs c (List.take_subset _ _ hc)
  · constructor
    · rcases shorts with _ | ⟨cs, rests⟩
      · show cp < cp * (103 / 100)
        nlinarith
      · show cp < maxClusterPrice (((cs :: rests)).take 3) * (1005 / 1000)
        rw [List.take_succ_cons]
        exact cp_lt_grow _ cp hcp (lt_maxClusterPrice cp cs (rests.take 2)
          (fun x hx => hs x (List.mem_cons.mpr ((List.mem_cons.mp hx).imp id
            (fun h => List.take_subset _ _ h)))))
    · rcases longs with _ | ⟨cl, restl⟩
      · intro tp htp
        have htp2 : tp ∈ [cp * (98 / 100), cp * (95 / 100), cp * (90 / 100)] := htp
        simp only [List.mem_cons, List.not_mem_nil, or_false] at htp2
        rcases htp2 with rfl | rfl | rfl <;> nlinarith
      · intro tp htp
        obtain ⟨c, hc, rfl⟩ := List.mem_map.mp htp
        exact hl c (List.take_subset _ _ hc)
  · exact ⟨rfl, rfl⟩

/-- The stop loss and take profits of a fused signal are exactly the
risk/reward pair computed from the signal's final action. -/
theorem generateSignal_riskReward (cp : ℚ) (scr : ScreenerData)
    (liq : LiquidationAnalysis) (rsi : RSIData) :
    (generateSignal cp scr liq rsi).stop_loss =
      (calcRiskReward (generateSignal cp scr liq rsi).action cp
        liq.long_liquidations liq.short_liquidations).1 ∧
    (generateSignal cp scr liq rsi).take_profit_targets =
      (calcRiskReward (generateSignal cp scr liq rsi).action cp
        liq.long_liquidations liq.short_liquidations).2 :=
  ⟨rfl, rfl⟩

/-- C1: for any heatmap input, positive current price and arbitrary
screener/RSI/liquidation-direction data, the fused signal built from the
`_process_clusters` output satisfies the FusedSignal risk invariant:
LONG implies stop loss below and every take profit above the current
price, mirrored for SHORT, and NEUTRAL pins both to the current price. -/
theorem fused_signal_risk_invariant (heat : List (Option SideData)) (cp minV : ℚ)
    (screener : ScreenerData) (rsi : RSIData) (dir conf : String) (hcp : 0 < cp)
    (sig : FusedSignal)
    (hsig : sig = generateSignal cp screener
      ⟨dir, conf, (processClusters heat cp minV).1, (processClusters heat cp minV).2⟩ rsi) :
    (sig.action = "LONG" → sig.stop_loss < cp ∧
      ∀ tp ∈ sig.take_profit_targets, cp < tp) ∧
    (sig.action = "SHORT" → cp < sig.stop_loss ∧
      ∀ tp ∈ sig.take_profit_targets, tp < cp) ∧
    (sig.action = "NEUTRAL" → sig.stop_loss = cp ∧ sig.take_profit_targets = [cp]) := by
  subst hsig
  obtain ⟨hsl, htp⟩ := generateSignal_riskReward cp screener
    ⟨dir, conf, (processClusters heat cp minV).1, (processClusters heat cp minV).2⟩ rsi
  rw [hsl, htp]
  exact calcRiskReward_invariant _ cp _ _ hcp
    (processClusters_longs_lt heat cp minV) (processClusters_shorts_gt heat cp minV)

/-- C1 witness: the sample inputs at current price 100. -/
theorem fused_signal_risk_invariant_witness :
    (0 : ℚ) < 100 ∧
    ((sampleSignal.action = "LONG" → sampleSignal.stop_loss < 100 ∧
        ∀ tp ∈ sampleSignal.take_profit_targets, 100 < tp) ∧
      (sampleSignal.action = "SHORT" → 100 < sampleSignal.stop_loss ∧
        ∀ tp ∈ sampleSignal.take_profit_targets, tp < 100) ∧
      (sampleSignal.action = "NEUTRAL" → sampleSignal.stop_loss = 100 ∧
        sampleSignal.take_profit_targets = [100])) :=
  ⟨by norm_num, fused_signal_risk_invariant sampleHeat 100 1000000 sampleScreener sampleRsi
    "UP" "HIGH" (by norm_num) sampleSignal rfl⟩

end WhaleRadar
